import Mathlib

/-!
Shallow embedding of the ChatRoulette server (`gsay/app.py`) and proofs
about its matchmaking, room lifecycle and moderation logic.

Python dictionaries are modelled as association lists with unique keys,
Python `list` as `List`, SQLite tables as association lists keyed by IP,
wall-clock time as a natural number passed explicitly to every operation
that reads the clock, and socket emissions as an explicit event trace
returned alongside the new state.
-/

set_option maxHeartbeats 1000000

namespace ChatRoulette

/-- Lookup in an association list (Python `dict.get` / `dict[k]`). -/
def alookup {α : Type} (k : String) : List (String × α) → Option α
  | [] => none
  | (k', v) :: rest => if k' = k then some v else alookup k rest

/-- Update-or-append in an association list (Python `dict[k] = v`). -/
def aset {α : Type} (k : String) (v : α) : List (String × α) → List (String × α)
  | [] => [(k, v)]
  | (k', v') :: rest => if k' = k then (k, v) :: rest else (k', v') :: aset k v rest

/-- Remove a key from an association list (Python `del dict[k]`). -/
def aerase {α : Type} (k : String) : List (String × α) → List (String × α)
  | [] => []
  | (k', v') :: rest => if k' = k then rest else (k', v') :: aerase k rest

/-- Python truthiness of an optional string: `None` and the empty string are falsy. -/
def pyTruthy : Option String → Bool
  | none => false
  | some s => s ≠ ""

/-- Embeds `REPORT_THRESHOLD = 10` -/
def REPORT_THRESHOLD : ℕ := 10

/-- Embeds `BAN_DURATION = 1800` -/
def BAN_DURATION : ℕ := 1800

/-- Embeds `VALID_REPORT_REASONS` -/
def VALID_REPORT_REASONS : List String :=
  ["inappropriate_language", "spam", "offensive_behavior",
   "threatening", "inappropriate_video", "other"]

/-- Embeds `jaccard_similarity(interests1, interests2)`: float arithmetic is modelled
exactly over the rationals. -/
def jaccard_similarity (interests1 interests2 : List String) : ℚ :=
  if interests1 = [] ∨ interests2 = [] then 0
  else
    let set1 := interests1.toFinset
    let set2 := interests2.toFinset
    let intersection := (set1 ∩ set2).card
    let union := (set1 ∪ set2).card
    if union ≠ 0 then (intersection : ℚ) / (union : ℚ) else 0

/-- Row of `user_bans`: `ban_end`, `reason`, `ban_count`. -/
structure BanRec where
  ban_end : ℕ
  reason : String
  ban_count : ℕ
  deriving DecidableEq, Repr

/-- Row of `user_reports`: `report_count`, `last_reported`. -/
structure ReportRec where
  report_count : ℕ
  last_reported : ℕ
  deriving DecidableEq, Repr

/-- Row of `report_log`: the append-only audit entry. -/
structure ReportLogEntry where
  reported_ip : String
  reporter_ip : String
  reason : String
  comment : String
  deriving DecidableEq, Repr

/-- The per-session record stored in `user_data`. -/
structure UserData where
  connected_at : ℕ
  room : Option String
  interests : List String
  ip : String
  chat_mode : Option String
  deriving DecidableEq, Repr

/-- An entry of `active_rooms`. -/
structure Room where
  users : List String
  created_at : ℕ
  chat_mode : String
  deriving DecidableEq, Repr

/-- One transcript entry appended by `send_message`. -/
structure Message where
  sender : String
  message : String
  timestamp : ℕ
  deriving DecidableEq, Repr

/-- A socket emission, tagged with the recipient session id. -/
inductive Event where
  | bannedNotice (dest : String) (ban_end : Option ℕ)
  | waiting (dest : String)
  | matched (dest : String) (room : String) (partner_id : String) (initiator : Bool)
  | message (dest : String) (text : String) (sender : String)
  | partner_disconnected (dest : String)
  | force_disconnect (dest : String) (ban_end : ℕ) (reason : String)
  | error (dest : String) (msg : String)
  | typing (dest : String)
  | stop_typing (dest : String)
  | stats_update
  deriving DecidableEq, Repr

/-- The whole shared state: the five process-wide dictionaries plus the three
SQLite tables and the directory of persisted conversation logs. -/
structure ServerState where
  waiting_users : List String
  active_rooms : List (String × Room)
  user_rooms : List (String × String)
  user_data : List (String × UserData)
  room_messages : List (String × List Message)
  user_reports : List (String × ReportRec)
  user_bans : List (String × BanRec)
  report_log : List ReportLogEntry
  saved_logs : List (ℕ × String)
  deriving DecidableEq, Repr

/-- The empty server state at process start. -/
def initialState : ServerState :=
  ⟨[], [], [], [], [], [], [], [], []⟩

/-- Embeds `is_banned(user_ip)`: reads `user_bans`; an expired record is deleted and
reported as not banned. Returns `((banned, ban_end), new table)`. -/
def is_banned (now : ℕ) (user_ip : String) (bans : List (String × BanRec)) :
    (Bool × Option ℕ) × List (String × BanRec) :=
  match alookup user_ip bans with
  | some r =>
      if now > r.ban_end then ((false, none), aerase user_ip bans)
      else ((true, some r.ban_end), bans)
  | none => ((false, none), bans)

/-- Embeds `cleanup_expired_bans()`: `DELETE FROM user_bans WHERE ban_end < CURRENT_TIMESTAMP`. -/
def cleanup_expired_bans (now : ℕ) (bans : List (String × BanRec)) :
    List (String × BanRec) :=
  bans.filter (fun p => ¬ p.2.ban_end < now)

/-- Embeds `cleanup_room_messages()`: the transcript-eviction sweep.  Mirrors the
source exactly: for each transcript whose room is absent from `active_rooms`,
`created_at = active_rooms.get(room_id, {}).get("created_at", now)` and the
transcript is collected for removal only when `now - created_at > 3600`. -/
def cleanup_room_messages (now : ℕ) (s : ServerState) : ServerState :=
  let max_age := 3600
  let to_remove := (s.room_messages.map Prod.fst).filter (fun room_id =>
    match alookup room_id s.active_rooms with
    | some _ => false
    | none =>
        let created_at := ((alookup room_id s.active_rooms).map Room.created_at).getD now
        decide (now - created_at > max_age))
  { s with room_messages := to_remove.foldl (fun rm rid => aerase rid rm) s.room_messages }

/-- Embeds `user_data.get(sid, {}).get("ip")` with Python truthiness: a missing
record or an empty address resolves to `none`. -/
def resolve_ip (sid : String) (ud : List (String × UserData)) : Option String :=
  match alookup sid ud with
  | some d => if d.ip = "" then none else some d.ip
  | none => none

/-- One character of `html.escape` (quote characters written via `Char.ofNat`). -/
def escapeChar (c : Char) : String :=
  if c = '&' then "&amp;"
  else if c = '<' then "&lt;"
  else if c = '>' then "&gt;"
  else if c = Char.ofNat 34 then "&quot;"
  else if c = Char.ofNat 39 then "&#x27;"
  else String.singleton c

/-- Embeds `html.escape(s)`. -/
def html_escape (str : String) : String :=
  String.join (str.toList.map escapeChar)

/-- Embeds `save_conversation_log(room_id, report_id, ...)`: writes a log file when the
room has an in-memory transcript; modelled as appending to `saved_logs`. -/
def save_conversation_log (room_id : String) (report_id : ℕ) (s : ServerState) :
    ServerState :=
  if (alookup room_id s.room_messages).isSome then
    { s with saved_logs := s.saved_logs ++ [(report_id, room_id)] }
  else s

/-- Embeds `ban_user(ip, reason, sid_to_cleanup)`: reads the prior `ban_count` (0 when
no row exists), writes a ban of `BAN_DURATION * 2 ** ban_count` seconds with the
count incremented, then removes the session from the queue, tears down its room
(notifying the partner), pushes `force_disconnect`, and finally runs
`cleanup_expired_bans`. -/
def ban_user (now : ℕ) (ip : String) (reason : String) (sid_to_cleanup : Option String)
    (s : ServerState) : ServerState × List Event :=
  let ban_count := ((alookup ip s.user_bans).map BanRec.ban_count).getD 0
  let duration := BAN_DURATION * 2 ^ ban_count
  let ban_end := now + duration
  let new_ban_count := ban_count + 1
  let s1 := { s with user_bans := aset ip ⟨ban_end, reason, new_ban_count⟩ s.user_bans }
  let step2 : ServerState × List Event :=
    match sid_to_cleanup with
    | none => (s1, [])
    | some sid =>
      let w := if sid ∈ s1.waiting_users then s1.waiting_users.erase sid else s1.waiting_users
      let s2 := { s1 with waiting_users := w }
      match alookup sid s2.user_rooms with
      | none => (s2, [Event.force_disconnect sid ban_end reason])
      | some room_id =>
        match alookup room_id s2.active_rooms with
        | none =>
            ({ s2 with user_rooms := aerase sid s2.user_rooms },
             [Event.force_disconnect sid ban_end reason])
        | some room =>
          match room.users.find? (fun uid => uid ≠ sid) with
          | some partner_id =>
            ({ s2 with
                user_rooms := aerase sid (aerase partner_id s2.user_rooms),
                active_rooms := aerase room_id s2.active_rooms },
             [Event.partner_disconnected partner_id,
              Event.force_disconnect sid ban_end reason])
          | none =>
            ({ s2 with
                user_rooms := aerase sid s2.user_rooms,
                active_rooms := aerase room_id s2.active_rooms },
             [Event.force_disconnect sid ban_end reason])
  ({ step2.1 with user_bans := cleanup_expired_bans now step2.1.user_bans }, step2.2)

/-- Embeds `INSERT OR IGNORE INTO user_reports (ip) VALUES (?)`: creates the row with
the default `report_count` 0 when absent. -/
def insert_or_ignore (rip : String) (now : ℕ)
    (reports : List (String × ReportRec)) : List (String × ReportRec) :=
  if (alookup rip reports).isSome then reports else aset rip ⟨0, now⟩ reports

/-- Embeds `UPDATE user_reports SET report_count = report_count + 1,
last_reported = CURRENT_TIMESTAMP WHERE ip = ?`. -/
def increment_report (rip : String) (now : ℕ)
    (reports : List (String × ReportRec)) : List (String × ReportRec) :=
  match alookup rip reports with
  | some r => aset rip ⟨r.report_count + 1, now⟩ reports
  | none => reports

/-- Embeds `room_id = user_rooms.get(reporter_sid)` followed by
`if room_id: save_conversation_log(...)` (truthiness: a missing binding or an
empty room id skips persistence). -/
def maybe_save_transcript (reporter_sid : String) (report_id : ℕ) (s : ServerState) :
    ServerState :=
  match alookup reporter_sid s.user_rooms with
  | some room_id => if room_id ≠ "" then save_conversation_log room_id report_id s else s
  | none => s

/-- Embeds `report_user(reporter_sid, reported_sid, reason, comment)`: validation,
report-count increment, audit log append, transcript persistence when the
reporter is in a room, and threshold-triggered ban. -/
def report_user (now : ℕ) (reporter_sid reported_sid : String)
    (reason comment : String) (s : ServerState) : ServerState × List Event :=
  if reported_sid = reporter_sid then
    (s, [Event.error reporter_sid "Non puoi segnalare te stesso"])
  else
    match resolve_ip reported_sid s.user_data, resolve_ip reporter_sid s.user_data with
    | some reported_ip, some reporter_ip =>
      if reason ∉ VALID_REPORT_REASONS then
        (s, [Event.error reporter_sid "Motivo non valido"])
      else
        let comment1 := html_escape (comment.take 500)
        let reports2 := increment_report reported_ip now
          (insert_or_ignore reported_ip now s.user_reports)
        let count := ((alookup reported_ip reports2).map ReportRec.report_count).getD 0
        let log1 := s.report_log ++ [⟨reported_ip, reporter_ip, reason, comment1⟩]
        let report_id := log1.length
        let s1 := { s with user_reports := reports2, report_log := log1 }
        let s2 := maybe_save_transcript reporter_sid report_id s1
        if count ≥ REPORT_THRESHOLD then
          ban_user now reported_ip reason (some reported_sid) s2
        else (s2, [])
    | _, _ => (s, [Event.error reporter_sid "Utente non trovato"])

/-- The body of the `for w_user_id in waiting_users` loop of
`get_sorted_waiting_partners`: keeps, in queue order, every waiting session
with the requested `chat_mode` that is not banned, paired with its Jaccard
score; the lazy ban-deletion side effect of `is_banned` is threaded through. -/
def collect_compatible (now : ℕ) (current_interests : List String) (chat_mode : String)
    (ud : List (String × UserData)) :
    List String → List (String × BanRec) → List (ℚ × String) × List (String × BanRec)
  | [], bans => ([], bans)
  | w :: rest, bans =>
    match alookup w ud with
    | none => collect_compatible now current_interests chat_mode ud rest bans
    | some d =>
      if d.chat_mode ≠ some chat_mode then
        collect_compatible now current_interests chat_mode ud rest bans
      else if d.ip ≠ "" then
        let res := is_banned now d.ip bans
        if res.1.1 then collect_compatible now current_interests chat_mode ud rest res.2
        else
          let tl := collect_compatible now current_interests chat_mode ud rest res.2
          ((jaccard_similarity current_interests d.interests, w) :: tl.1, tl.2)
      else
        let tl := collect_compatible now current_interests chat_mode ud rest bans
        ((jaccard_similarity current_interests d.interests, w) :: tl.1, tl.2)

/-- Stable insertion for a descending sort by score: a new element goes after
every element whose score is greater than or equal to its own. -/
def insert_desc (x : ℚ × String) : List (ℚ × String) → List (ℚ × String)
  | [] => [x]
  | y :: ys => if x.1 > y.1 then x :: y :: ys else y :: insert_desc x ys

/-- Embeds `compatible_users.sort(key=lambda x: x[0], reverse=True)`: The Python sort method is
stable; `reverse=True` sorts descending without reordering equal keys.
Modelled as a stable insertion sort. -/
def sort_desc (l : List (ℚ × String)) : List (ℚ × String) :=
  l.foldl (fun acc x => insert_desc x acc) []

/-- Embeds `user_data.get(current_user_id, {}).get("interests", [])`. -/
def current_interests (current_user_id : String) (s : ServerState) : List String :=
  ((alookup current_user_id s.user_data).map UserData.interests).getD []

/-- Embeds `get_sorted_waiting_partners(current_user_id, chat_mode)`. -/
def get_sorted_waiting_partners (now : ℕ) (current_user_id : String)
    (chat_mode : String) (s : ServerState) : List String × List (String × BanRec) :=
  let res := collect_compatible now (current_interests current_user_id s) chat_mode
    s.user_data s.waiting_users s.user_bans
  ((sort_desc res.1).map Prod.snd, res.2)

/-- The selection loop of `handle_find_partner`: the first ranked candidate
that is not the requester, still registered and not banned at selection time. -/
def select_partner (now : ℕ) (user_id : String) (ud : List (String × UserData)) :
    List String → List (String × BanRec) → Option String × List (String × BanRec)
  | [], bans => (none, bans)
  | w :: rest, bans =>
    if w ≠ user_id then
      match alookup w ud with
      | some d =>
        let res := is_banned now d.ip bans
        if res.1.1 then select_partner now user_id ud rest res.2
        else (some w, res.2)
      | none => select_partner now user_id ud rest bans
    else select_partner now user_id ud rest bans

/-- Embeds `handle_connect`: admission ban check, then session-record creation. -/
def handle_connect (now : ℕ) (user_id ip : String) (s : ServerState) :
    ServerState × List Event :=
  let bres := is_banned now ip s.user_bans
  let s1 := { s with user_bans := bres.2 }
  if bres.1.1 then (s1, [Event.bannedNotice user_id bres.1.2])
  else
    ({ s1 with user_data := aset user_id ⟨now, none, [], ip, none⟩ s1.user_data },
     [Event.stats_update])

/-- Embeds `handle_find_partner`: ban check, attribute refresh, dequeue-if-present,
ranking, guarded selection, then either room creation or enqueue.  The fresh
`secrets.token_hex(8)` room id is passed in explicitly. -/
def handle_find_partner (now : ℕ) (user_id : String) (interests : List String)
    (chat_mode : String) (new_room_id : String) (s : ServerState) :
    ServerState × List Event :=
  match resolve_ip user_id s.user_data with
  | none => (s, [])
  | some user_ip =>
    let bres := is_banned now user_ip s.user_bans
    let s1 := { s with user_bans := bres.2 }
    if bres.1.1 then (s1, [Event.bannedNotice user_id none])
    else
      let s2 := match alookup user_id s1.user_data with
        | some d =>
            let d2 := { d with interests := interests, chat_mode := some chat_mode }
            { s1 with user_data := aset user_id d2 s1.user_data }
        | none => s1
      let s3 := if user_id ∈ s2.waiting_users
        then { s2 with waiting_users := s2.waiting_users.erase user_id } else s2
      let gres := get_sorted_waiting_partners now user_id chat_mode s3
      let s4 := { s3 with user_bans := gres.2 }
      let pres := select_partner now user_id s4.user_data gres.1 s4.user_bans
      let s5 := { s4 with user_bans := pres.2 }
      match pres.1 with
      | some partner_id =>
        let s6 := { s5 with waiting_users := s5.waiting_users.erase partner_id }
        let room : Room := ⟨[user_id, partner_id], now, chat_mode⟩
        let s7 := { s6 with
                     active_rooms := aset new_room_id room s6.active_rooms,
                     room_messages := aset new_room_id [] s6.room_messages }
        let s8 := { s7 with
                     user_rooms := aset partner_id new_room_id (aset user_id new_room_id s7.user_rooms) }
        (s8, [Event.matched user_id new_room_id partner_id true,
              Event.matched partner_id new_room_id user_id false,
              Event.stats_update])
      | none =>
        ({ s5 with waiting_users := s5.waiting_users ++ [user_id] },
         [Event.waiting user_id, Event.stats_update])

/-- Embeds `handle_stop_searching`. -/
def handle_stop_searching (now : ℕ) (user_id : String) (s : ServerState) :
    ServerState × List Event :=
  match resolve_ip user_id s.user_data with
  | none => (s, [])
  | some user_ip =>
    let bres := is_banned now user_ip s.user_bans
    let s1 := { s with user_bans := bres.2 }
    if bres.1.1 then (s1, [])
    else if user_id ∈ s1.waiting_users then
      ({ s1 with waiting_users := s1.waiting_users.erase user_id }, [Event.stats_update])
    else (s1, [])

/-- The room-teardown block shared verbatim by `handle_disconnect` and
`handle_change_mode`: notify the partner, clear both bindings, delete the room. -/
def teardown_room (user_id : String) (s : ServerState) : ServerState × List Event :=
  match alookup user_id s.user_rooms with
  | none => (s, [])
  | some room_id =>
    match alookup room_id s.active_rooms with
    | none => ({ s with user_rooms := aerase user_id s.user_rooms }, [])
    | some room =>
      match room.users.find? (fun uid => uid ≠ user_id) with
      | some partner_id =>
        ({ s with
            user_rooms := aerase user_id (aerase partner_id s.user_rooms),
            active_rooms := aerase room_id s.active_rooms },
         [Event.partner_disconnected partner_id])
      | none =>
        ({ s with
            user_rooms := aerase user_id s.user_rooms,
            active_rooms := aerase room_id s.active_rooms }, [])

/-- Embeds `handle_disconnect`: dequeue, room teardown, session-record deletion. -/
def handle_disconnect (user_id : String) (s : ServerState) : ServerState × List Event :=
  let s1 := if user_id ∈ s.waiting_users
    then { s with waiting_users := s.waiting_users.erase user_id } else s
  let tres := teardown_room user_id s1
  let s3 := { tres.1 with user_data := aerase user_id tres.1.user_data }
  (s3, tres.2 ++ [Event.stats_update])

/-- Embeds `handle_change_mode`: same teardown sequence as `handle_disconnect`. -/
def handle_change_mode (user_id : String) (s : ServerState) : ServerState × List Event :=
  let s1 := if user_id ∈ s.waiting_users
    then { s with waiting_users := s.waiting_users.erase user_id } else s
  let tres := teardown_room user_id s1
  let s3 := { tres.1 with user_data := aerase user_id tres.1.user_data }
  (s3, tres.2 ++ [Event.stats_update])

/-- Embeds `handle_next_partner`: ban-guarded room teardown; the session record is kept. -/
def handle_next_partner (now : ℕ) (user_id : String) (s : ServerState) :
    ServerState × List Event :=
  match resolve_ip user_id s.user_data with
  | none => (s, [])
  | some user_ip =>
    let bres := is_banned now user_ip s.user_bans
    let s1 := { s with user_bans := bres.2 }
    if bres.1.1 then (s1, [])
    else
      let tres := teardown_room user_id s1
      (tres.1, tres.2 ++ [Event.stats_update])

/-- Embeds `handle_message` (`send_message`): relay to the partner (unless the partner
is banned or gone) and append to the room transcript.  Line 2271 of the source
tags the stored entry `"Tu" if user_id == request.sid else "Stranger"`, with
`user_id` bound to `request.sid` at the top of the handler. -/
def handle_message (now : ℕ) (request_sid : String) (text : String)
    (s : ServerState) : ServerState × List Event :=
  let user_id := request_sid
  match resolve_ip user_id s.user_data with
  | none => (s, [])
  | some user_ip =>
    let bres := is_banned now user_ip s.user_bans
    let s1 := { s with user_bans := bres.2 }
    if bres.1.1 then (s1, [])
    else
      match alookup user_id s1.user_rooms with
      | none => (s1, [Event.error user_id "Non sei connesso a nessuna chat"])
      | some room_id =>
        match alookup room_id s1.active_rooms with
        | none => (s1, [Event.error user_id "La stanza non esiste piu"])
        | some room =>
          match room.users.find? (fun uid => uid ≠ user_id) with
          | none => (s1, [Event.error user_id "Partner non disponibile"])
          | some partner_id =>
            let pres := match resolve_ip partner_id s1.user_data with
              | some pip => is_banned now pip s1.user_bans
              | none => ((false, none), s1.user_bans)
            let s2 := { s1 with user_bans := pres.2 }
            if pres.1.1 then (s2, [Event.error user_id "Partner non disponibile"])
            else
              let sanitized := html_escape text
              let entry : Message :=
                ⟨if user_id = request_sid then "Tu" else "Stranger", sanitized, now⟩
              let old := (alookup room_id s2.room_messages).getD []
              ({ s2 with room_messages := aset room_id (old ++ [entry]) s2.room_messages },
               [Event.message partner_id sanitized "Stranger"])

/-- Embeds `handle_report_user`: silent drop when the address of the reporter does not
resolve or the reporter is banned; otherwise validation and `report_user`. -/
def handle_report_user (now : ℕ) (user_id : String) (reported_id : Option String)
    (reason comment : String) (s : ServerState) : ServerState × List Event :=
  match resolve_ip user_id s.user_data with
  | none => (s, [])
  | some user_ip =>
    let bres := is_banned now user_ip s.user_bans
    let s1 := { s with user_bans := bres.2 }
    if bres.1.1 then (s1, [])
    else
      match reported_id with
      | some rid =>
          if rid ≠ "" ∧ rid ≠ user_id then report_user now user_id rid reason comment s1
          else (s1, [Event.error user_id "ID utente non valido"])
      | none => (s1, [Event.error user_id "ID utente non valido"])

/-- One inbound client operation. -/
inductive Op where
  | connect (sid ip : String)
  | find_partner (sid : String) (interests : List String) (chat_mode new_room_id : String)
  | stop_searching (sid : String)
  | next_partner (sid : String)
  | change_mode (sid : String)
  | disconnect (sid : String)
  | report (sid : String) (reported_id : Option String) (reason comment : String)
  deriving DecidableEq, Repr

/-- Dispatch one operation to its handler. -/
def step (now : ℕ) (op : Op) (s : ServerState) : ServerState × List Event :=
  match op with
  | .connect sid ip => handle_connect now sid ip s
  | .find_partner sid ints mode rid => handle_find_partner now sid ints mode rid s
  | .stop_searching sid => handle_stop_searching now sid s
  | .next_partner sid => handle_next_partner now sid s
  | .change_mode sid => handle_change_mode sid s
  | .disconnect sid => handle_disconnect sid s
  | .report sid rep reason comment => handle_report_user now sid rep reason comment s

/-- Run a sequence of operations, discarding the emitted events. -/
def run_ops (now : ℕ) (ops : List Op) (s : ServerState) : ServerState :=
  ops.foldl (fun st op => (step now op st).1) s

/-- The cumulative report count recorded for an address (0 when no row exists). -/
def reportCount (ip : String) (s : ServerState) : ℕ :=
  ((alookup ip s.user_reports).map ReportRec.report_count).getD 0

/-- The compatibility score a requester with interests `cur` assigns to a
waiting session id, reading the interests of that session from `user_data`. -/
def scoreOf (cur : List String) (ud : List (String × UserData)) (w : String) : ℚ :=
  jaccard_similarity cur (((alookup w ud).map UserData.interests).getD [])

/-- Recogniser for `partner_disconnected` emissions. -/
def isPD : Event → Bool
  | .partner_disconnected _ => true
  | _ => false

section AssocLemmas

variable {α : Type}

theorem alookup_aset_self (k : String) (v : α) (l : List (String × α)) :
    alookup k (aset k v l) = some v := by
  induction l with
  | nil => simp [aset, alookup]
  | cons h t ih =>
      obtain ⟨k', v'⟩ := h
      by_cases hk : k' = k
      · simp [aset, alookup, hk]
      · simp [aset, alookup, hk, ih]

theorem alookup_aset_ne (k k' : String) (v : α) (l : List (String × α))
    (h : k' ≠ k) : alookup k' (aset k v l) = alookup k' l := by
  induction l with
  | nil =>
      have h1 : ¬ k = k' := fun hh => h hh.symm
      simp [aset, alookup, h1]
  | cons hd t ih =>
      obtain ⟨k0, v0⟩ := hd
      by_cases hk : k0 = k
      · subst hk
        have h1 : ¬ k0 = k' := fun hh => h hh.symm
        simp [aset, alookup, h1]
      · by_cases hk' : k0 = k'
        · subst hk'
          simp [aset, alookup, hk]
        · simp [aset, alookup, hk, hk', ih]

theorem alookup_aerase_ne (k k' : String) (l : List (String × α))
    (h : k' ≠ k) : alookup k' (aerase k l) = alookup k' l := by
  induction l with
  | nil => simp [aerase, alookup]
  | cons hd t ih =>
      obtain ⟨k0, v0⟩ := hd
      by_cases hk : k0 = k
      · subst hk
        have h1 : ¬ k0 = k' := fun hh => h hh.symm
        simp [aerase, alookup, h1]
      · by_cases hk' : k0 = k'
        · subst hk'
          simp [aerase, alookup, hk]
        · simp [aerase, alookup, hk, hk', ih]

theorem alookup_none_of_key_not_mem (k : String) (l : List (String × α))
    (h : k ∉ l.map Prod.fst) : alookup k l = none := by
  induction l with
  | nil => simp [alookup]
  | cons hd t ih =>
      obtain ⟨k0, v0⟩ := hd
      simp only [List.map_cons, List.mem_cons] at h
      push_neg at h
      have h1 : ¬ k0 = k := fun hh => h.1 hh.symm
      simp [alookup, h1, ih h.2]

theorem alookup_aerase_self (k : String) (l : List (String × α))
    (h : (l.map Prod.fst).Nodup) : alookup k (aerase k l) = none := by
  induction l with
  | nil => simp [aerase, alookup]
  | cons hd t ih =>
      obtain ⟨k0, v0⟩ := hd
      simp only [List.map_cons, List.nodup_cons] at h
      by_cases hk : k0 = k
      · subst hk
        have he : aerase k0 ((k0, v0) :: t) = t := by simp [aerase]
        rw [he]
        exact alookup_none_of_key_not_mem k0 t h.1
      · simp [aerase, alookup, hk, ih h.2]

theorem keys_aerase_sublist (k : String) (l : List (String × α)) :
    ((aerase k l).map Prod.fst).Sublist (l.map Prod.fst) := by
  induction l with
  | nil => simp [aerase]
  | cons hd t ih =>
      obtain ⟨k0, v0⟩ := hd
      by_cases hk : k0 = k
      · simp [aerase, hk]
      · simpa [aerase, hk] using ih.cons₂ k0

theorem nodup_keys_aerase (k : String) (l : List (String × α))
    (h : (l.map Prod.fst).Nodup) : ((aerase k l).map Prod.fst).Nodup :=
  (keys_aerase_sublist k l).nodup h

theorem alookup_filter (k : String) (v : α) (p : String × α → Bool)
    (l : List (String × α)) (h : alookup k l = some v) (hp : p (k, v) = true) :
    alookup k (l.filter p) = some v := by
  induction l with
  | nil => simp [alookup] at h
  | cons hd t ih =>
      obtain ⟨k0, v0⟩ := hd
      by_cases hk : k0 = k
      · subst hk
        simp only [alookup, if_pos rfl] at h
        obtain rfl : v0 = v := by exact Option.some_injective _ h
        simp [List.filter, hp, alookup]
      · simp only [alookup, if_neg hk] at h
        by_cases hpc : p (k0, v0)
        · simp [List.filter, hpc, alookup, hk, ih h]
        · simp [List.filter, hpc, ih h]

end AssocLemmas

/-- C2: the transcript-eviction sweep removes nothing, on any state at any
time: for a room absent from `active_rooms` the code reads the creation
time out of `active_rooms` again, so the age defaults to zero and the
`now - created_at > 3600` test is never satisfied. -/
theorem cleanup_room_messages_removes_nothing (now : ℕ) (s : ServerState) :
    (cleanup_room_messages now s).room_messages = s.room_messages := by
  show ((s.room_messages.map Prod.fst).filter _).foldl _ s.room_messages = _
  have hfil : ((s.room_messages.map Prod.fst).filter (fun room_id =>
      match alookup room_id s.active_rooms with
      | some _ => false
      | none => decide (now - ((alookup room_id s.active_rooms).map Room.created_at).getD now > 3600))) = [] := by
    rw [List.filter_eq_nil_iff]
    intro a _
    cases h : alookup a s.active_rooms <;> simp [h]
  rw [hfil]
  rfl

/-- C4: the compatibility score is `|A ∩ B| / |A ∪ B|` over the interest sets,
lies in `[0, 1]`, is symmetric, is `0` when either input is empty, and is `1`
on a non-empty list compared with itself. -/
theorem jaccard_spec (A B : List String) :
    jaccard_similarity A B =
      ((A.toFinset ∩ B.toFinset).card : ℚ) / ((A.toFinset ∪ B.toFinset).card : ℚ) ∧
    0 ≤ jaccard_similarity A B ∧ jaccard_similarity A B ≤ 1 ∧
    jaccard_similarity A B = jaccard_similarity B A ∧
    (A = [] ∨ B = [] → jaccard_similarity A B = 0) ∧
    (A = B ∧ A ≠ [] → jaccard_similarity A B = 1) := by
  have formula : ∀ X Y : List String, jaccard_similarity X Y =
      ((X.toFinset ∩ Y.toFinset).card : ℚ) / ((X.toFinset ∪ Y.toFinset).card : ℚ) := by
    intro X Y
    unfold jaccard_similarity
    by_cases hXY : X = [] ∨ Y = []
    · rw [if_pos hXY]
      rcases hXY with h | h <;> subst h <;> simp
    · rw [if_neg hXY]
      push_neg at hXY
      have hX : X.toFinset ≠ ∅ := by
        simpa [List.toFinset_eq_empty_iff] using hXY.1
      have hU : (X.toFinset ∪ Y.toFinset).card ≠ 0 := by
        simp only [ne_eq, Finset.card_eq_zero]
        intro hc
        exact hX (Finset.union_eq_empty.mp hc).1
      simp [hU]
  have hle : ∀ X Y : List String, jaccard_similarity X Y ≤ 1 := by
    intro X Y
    rw [formula]
    rcases Nat.eq_zero_or_pos (X.toFinset ∪ Y.toFinset).card with hz | hpos
    · simp [hz]
    · rw [div_le_one (by exact_mod_cast hpos)]
      exact_mod_cast Finset.card_le_card Finset.inter_subset_union
  refine ⟨formula A B, ?_, hle A B, ?_, ?_, ?_⟩
  · rw [formula]
    exact div_nonneg (by positivity) (by positivity)
  · rw [formula, formula, Finset.inter_comm, Finset.union_comm]
  · intro h
    unfold jaccard_similarity
    rw [if_pos h]
  · rintro ⟨rfl, hne⟩
    rw [formula]
    have hc : (A.toFinset.card : ℚ) ≠ 0 := by
      have : A.toFinset ≠ ∅ := by simpa [List.toFinset_eq_empty_iff] using hne
      exact_mod_cast Finset.card_ne_zero_of_mem (Finset.nonempty_iff_ne_empty.mpr this).choose_spec
    simp [Finset.inter_self, Finset.union_self, div_self hc]

/-- Closed instances of C4 obtained from `jaccard_spec`. -/
theorem jaccard_spec_witness :
    jaccard_similarity ["a"] ["a"] = 1 ∧ jaccard_similarity ["a"] [] = 0 :=
  ⟨(jaccard_spec ["a"] ["a"]).2.2.2.2.2 ⟨rfl, by simp⟩,
   (jaccard_spec ["a"] []).2.2.2.2.1 (Or.inr rfl)⟩

/-- Two sessions connect, `a` waits, `b` matches with `a` into room `r1`, and
then `b` — still a member of `r1` — issues another `find_partner`. -/
def opsQueueRoom : List Op :=
  [Op.connect "a" "ipA", Op.connect "b" "ipB",
   Op.find_partner "a" [] "text" "r1",
   Op.find_partner "b" [] "text" "r1",
   Op.find_partner "b" [] "text" "r2"]

/-- C1: the queue/room exclusion invariant is violated by the code:
`handle_find_partner` never consults `user_rooms`, so after the trace
`opsQueueRoom` session `b` is simultaneously in the waiting queue and still
bound to room `r1`. -/
theorem find_partner_breaks_queue_room_exclusion :
    "b" ∈ (run_ops 0 opsQueueRoom initialState).waiting_users ∧
    alookup "b" (run_ops 0 opsQueueRoom initialState).user_rooms = some "r1" ∧
    alookup "r1" (run_ops 0 opsQueueRoom initialState).active_rooms ≠ none := by
  refine ⟨?_, ?_, ?_⟩ <;> decide

/-- C7: `is_banned` on an address with a recorded ban reports not-banned and
deletes the record when the expiry has passed, and reports banned with the
expiry when it has not. -/
theorem is_banned_spec (now : ℕ) (ip : String) (bans : List (String × BanRec))
    (r : BanRec) (hlook : alookup ip bans = some r)
    (hnodup : (bans.map Prod.fst).Nodup) :
    (now > r.ban_end →
      is_banned now ip bans = ((false, none), aerase ip bans) ∧
      alookup ip (is_banned now ip bans).2 = none) ∧
    (¬ now > r.ban_end →
      is_banned now ip bans = ((true, some r.ban_end), bans)) := by
  constructor
  · intro hgt
    have he : is_banned now ip bans = ((false, none), aerase ip bans) := by
      unfold is_banned
      rw [hlook]
      simp [hgt]
    refine ⟨he, ?_⟩
    rw [he]
    exact alookup_aerase_self ip bans hnodup
  · intro hle
    unfold is_banned
    rw [hlook]
    simp [hle]

/-- Closed instances of C7 obtained from `is_banned_spec`: an expired record
(expiry 10, clock 20) is dropped and reported absent, an active one
(clock 5) is reported banned with its expiry. -/
theorem is_banned_spec_witness :
    is_banned 20 "ip1" [("ip1", ⟨10, "r", 1⟩)] = ((false, none), []) ∧
    alookup "ip1" (is_banned 20 "ip1" [("ip1", ⟨10, "r", 1⟩)]).2 = none ∧
    is_banned 5 "ip1" [("ip1", ⟨10, "r", 1⟩)] = ((true, some 10), [("ip1", ⟨10, "r", 1⟩)]) := by
  have h1 := is_banned_spec 20 "ip1" [("ip1", ⟨10, "r", 1⟩)] ⟨10, "r", 1⟩ rfl (by simp)
  have h2 := is_banned_spec 5 "ip1" [("ip1", ⟨10, "r", 1⟩)] ⟨10, "r", 1⟩ rfl (by simp)
  refine ⟨?_, ?_, ?_⟩
  · have he := (h1.1 (by norm_num)).1
    simpa [aerase] using he
  · exact (h1.1 (by norm_num)).2
  · exact h2.2 (by norm_num)

theorem mem_getD_alookup_aset (rid k : String) (v : List Message)
    (l : List (String × List Message)) (m : Message)
    (hm : m ∈ (alookup rid (aset k v l)).getD []) :
    (rid = k ∧ m ∈ v) ∨ m ∈ (alookup rid l).getD [] := by
  by_cases hr : rid = k
  · subst hr
    rw [alookup_aset_self] at hm
    exact Or.inl ⟨rfl, by simpa using hm⟩
  · rw [alookup_aset_ne _ _ _ _ hr] at hm
    exact Or.inr hm

/-- C9: every entry `handle_message` adds to a room transcript carries the
constant sender tag `"Tu"`: line 2271 compares `user_id` with `request.sid`,
but `user_id` *is* `request.sid`, so the comparison is always true and the
moderation transcript never distinguishes the two parties. -/
theorem transcript_sender_always_tu (now : ℕ) (request_sid text : String)
    (s : ServerState) (rid : String) (m : Message)
    (hm : m ∈ (alookup rid (handle_message now request_sid text s).1.room_messages).getD []) :
    m ∈ (alookup rid s.room_messages).getD [] ∨ m.sender = "Tu" := by
  unfold handle_message at hm
  dsimp only at hm
  split at hm
  · exact Or.inl hm
  · split at hm
    · exact Or.inl hm
    · split at hm
      · exact Or.inl hm
      · split at hm
        · exact Or.inl hm
        · split at hm
          · exact Or.inl hm
          · split at hm
            · exact Or.inl hm
            · rcases mem_getD_alookup_aset _ _ _ _ _ hm with ⟨hr, hmem⟩ | hold
              · rcases List.mem_append.mp hmem with h1 | h2
                · subst hr
                  exact Or.inl h1
                · right
                  simp only [List.mem_singleton] at h2
                  subst h2
                  simp
              · exact Or.inl hold

/-- Boolean test that a scored candidate has score `q`. -/
def scoreEq (q : ℚ) : ℚ × String → Bool := fun y => y.1 = q

theorem insert_desc_perm (x : ℚ × String) (l : List (ℚ × String)) :
    (insert_desc x l).Perm (x :: l) := by
  induction l with
  | nil => simp [insert_desc]
  | cons y ys ih =>
      by_cases h : x.1 > y.1
      · simp [insert_desc, h]
      · simp only [insert_desc, if_neg h]
        exact (ih.cons y).trans (List.Perm.swap x y ys)

theorem insert_desc_sorted (x : ℚ × String) (l : List (ℚ × String))
    (hl : l.Pairwise (fun a b => b.1 ≤ a.1)) :
    (insert_desc x l).Pairwise (fun a b => b.1 ≤ a.1) := by
  induction l with
  | nil => simp [insert_desc]
  | cons y ys ih =>
      rcases List.pairwise_cons.mp hl with ⟨hy, hys⟩
      by_cases h : x.1 > y.1
      · simp only [insert_desc, if_pos h]
        refine List.pairwise_cons.mpr ⟨?_, hl⟩
        intro z hz
        rcases List.mem_cons.mp hz with rfl | hz'
        · exact le_of_lt h
        · exact le_trans (hy z hz') (le_of_lt h)
      · simp only [insert_desc, if_neg h]
        refine List.pairwise_cons.mpr ⟨?_, ih hys⟩
        intro z hz
        have hz' := (insert_desc_perm x ys).mem_iff.mp hz
        rcases List.mem_cons.mp hz' with rfl | hz''
        · exact not_lt.mp h
        · exact hy z hz''

theorem insert_desc_filter (x : ℚ × String) (q : ℚ) (l : List (ℚ × String))
    (hl : l.Pairwise (fun a b => b.1 ≤ a.1)) :
    (insert_desc x l).filter (scoreEq q) =
      if x.1 = q then l.filter (scoreEq q) ++ [x] else l.filter (scoreEq q) := by
  induction l with
  | nil =>
      by_cases hx : x.1 = q <;> simp [insert_desc, List.filter, scoreEq, hx]
  | cons y ys ih =>
      rcases List.pairwise_cons.mp hl with ⟨hy, hys⟩
      by_cases h : x.1 > y.1
      · simp only [insert_desc, if_pos h]
        by_cases hx : x.1 = q
        · have hfil : (y :: ys).filter (scoreEq q) = [] := by
            rw [List.filter_eq_nil_iff]
            intro z hz
            have hzle : z.1 ≤ y.1 := by
              rcases List.mem_cons.mp hz with rfl | hz'
              · exact le_refl _
              · exact hy z hz'
            have hlt : z.1 < x.1 := lt_of_le_of_lt hzle h
            simp only [scoreEq, decide_eq_true_eq]
            intro hzq
            rw [hzq, ← hx] at hlt
            exact lt_irrefl _ hlt
          rw [if_pos hx, hfil]
          have hxq : scoreEq q x = true := by
            simp [scoreEq, hx]
          simp [List.filter_cons, hxq, hfil]
        · have hxq : scoreEq q x = false := by
            simp [scoreEq, hx]
          rw [if_neg hx]
          simp [List.filter_cons, hxq]
      · simp only [insert_desc, if_neg h]
        rw [List.filter_cons, List.filter_cons]
        cases hyq : scoreEq q y
        · simp only [hyq, Bool.false_eq_true, if_false]
          rw [ih hys]
        · simp only [hyq, if_true]
          rw [ih hys]
          by_cases hx : x.1 = q
          · rw [if_pos hx, if_pos hx]
            simp
          · rw [if_neg hx, if_neg hx]

theorem sort_desc_aux (l : List (ℚ × String)) :
    ∀ acc : List (ℚ × String), acc.Pairwise (fun a b => b.1 ≤ a.1) →
    (l.foldl (fun a x => insert_desc x a) acc).Pairwise (fun a b => b.1 ≤ a.1) ∧
    (l.foldl (fun a x => insert_desc x a) acc).Perm (acc ++ l) ∧
    ∀ q, (l.foldl (fun a x => insert_desc x a) acc).filter (scoreEq q) =
      acc.filter (scoreEq q) ++ l.filter (scoreEq q) := by
  induction l with
  | nil => intro acc hacc; simp [hacc]
  | cons x xs ih =>
      intro acc hacc
      have h1 := insert_desc_sorted x acc hacc
      obtain ⟨ha, hb, hc⟩ := ih (insert_desc x acc) h1
      refine ⟨ha, ?_, ?_⟩
      · simp only [List.foldl_cons]
        refine hb.trans ?_
        refine ((insert_desc_perm x acc).append_right xs).trans ?_
        exact List.perm_middle.symm
      · intro q
        simp only [List.foldl_cons]
        rw [hc q, insert_desc_filter x q acc hacc, List.filter_cons]
        cases hxq : scoreEq q x
        · have hx : ¬ x.1 = q := by
            simpa [scoreEq] using hxq
          simp [hx, hxq]
        · have hx : x.1 = q := by
            simpa [scoreEq] using hxq
          simp [hx, hxq, List.append_assoc]

/-- Embeds `sort_desc` is a permutation, sorts scores descending, and is stable:
the sublist at each fixed score is exactly the corresponding sublist of the input. -/
theorem sort_desc_spec (l : List (ℚ × String)) :
    (sort_desc l).Pairwise (fun a b => b.1 ≤ a.1) ∧
    (sort_desc l).Perm l ∧
    ∀ q, (sort_desc l).filter (scoreEq q) = l.filter (scoreEq q) := by
  obtain ⟨ha, hb, hc⟩ := sort_desc_aux l [] (by simp)
  refine ⟨ha, by simpa [sort_desc] using hb, ?_⟩
  intro q
  have := hc q
  simpa [sort_desc] using this

theorem collect_compatible_snd_sublist (now : ℕ) (cur : List String) (mode : String)
    (ud : List (String × UserData)) (ws : List String) :
    ∀ bans, ((collect_compatible now cur mode ud ws bans).1.map Prod.snd).Sublist ws := by
  induction ws with
  | nil => intro bans; simp [collect_compatible]
  | cons w rest ih =>
      intro bans
      unfold collect_compatible
      split
      · exact (ih bans).cons w
      · split
        · exact (ih bans).cons w
        · dsimp only
          split
          · split
            · exact (ih _).cons w
            · exact (ih _).cons₂ w
          · exact (ih _).cons₂ w

theorem collect_compatible_score (now : ℕ) (cur : List String) (mode : String)
    (ud : List (String × UserData)) (ws : List String) :
    ∀ bans, ∀ p ∈ (collect_compatible now cur mode ud ws bans).1,
      p.1 = jaccard_similarity cur (((alookup p.2 ud).map UserData.interests).getD []) := by
  induction ws with
  | nil => intro bans p hp; simp [collect_compatible] at hp
  | cons w rest ih =>
      intro bans p hp
      unfold collect_compatible at hp
      split at hp
      · exact ih bans p hp
      · rename_i d hud
        split at hp
        · exact ih bans p hp
        · dsimp only at hp
          split at hp
          · split at hp
            · exact ih _ p hp
            · simp only at hp
              rcases List.mem_cons.mp hp with rfl | hp2
              · simp [hud]
              · exact ih _ p hp2
          · simp only at hp
            rcases List.mem_cons.mp hp with rfl | hp2
            · simp [hud]
            · exact ih _ p hp2

/-- C5: the candidate ranking produced by `get_sorted_waiting_partners` is a
permutation of the compatible waiting candidates, lists them in descending
order of compatibility score against the requester, and, at every fixed score
value, preserves the original queue order (the equal-score candidates form a
sublist of `waiting_users`). -/
theorem ranking_desc_and_stable (now : ℕ) (uid mode : String) (s : ServerState) :
    (get_sorted_waiting_partners now uid mode s).1.Pairwise
      (fun a b => scoreOf (current_interests uid s) s.user_data b ≤
                  scoreOf (current_interests uid s) s.user_data a) ∧
    (∀ q, ((get_sorted_waiting_partners now uid mode s).1.filter
        (fun w => scoreOf (current_interests uid s) s.user_data w = q)).Sublist
        s.waiting_users) ∧
    (get_sorted_waiting_partners now uid mode s).1.Perm
      ((collect_compatible now (current_interests uid s) mode s.user_data
          s.waiting_users s.user_bans).1.map Prod.snd) := by
  set cur := current_interests uid s with hcur
  set pairs := (collect_compatible now cur mode s.user_data s.waiting_users s.user_bans).1
    with hpairs
  obtain ⟨hsorted, hperm, hfil⟩ := sort_desc_spec pairs
  have hscore : ∀ p ∈ pairs, p.1 = scoreOf cur s.user_data p.2 := by
    intro p hp
    rw [collect_compatible_score now cur mode s.user_data s.waiting_users
      s.user_bans p hp]
    rfl
  have hscore' : ∀ p ∈ sort_desc pairs, p.1 = scoreOf cur s.user_data p.2 := by
    intro p hp
    exact hscore p (hperm.mem_iff.mp hp)
  have hres : (get_sorted_waiting_partners now uid mode s).1 =
      (sort_desc pairs).map Prod.snd := rfl
  refine ⟨?_, ?_, ?_⟩
  · rw [hres, List.pairwise_map]
    refine hsorted.imp_of_mem ?_
    intro a b ha hb hle
    rw [← hscore' a ha, ← hscore' b hb]
    exact hle
  · intro q
    rw [hres, List.filter_map]
    have hcongr : (sort_desc pairs).filter
        (fun p => decide (scoreOf cur s.user_data p.2 = q)) =
        (sort_desc pairs).filter (scoreEq q) := by
      apply List.filter_congr
      intro p hp
      simp [scoreEq, hscore' p hp]
    have hcongr2 : pairs.filter (scoreEq q) =
        pairs.filter (fun p => decide (scoreOf cur s.user_data p.2 = q)) := by
      apply List.filter_congr
      intro p hp
      simp [scoreEq, hscore p hp]
    have hstep : ((sort_desc pairs).filter
        (fun p => decide (scoreOf cur s.user_data p.2 = q))).map Prod.snd =
        (pairs.filter (scoreEq q)).map Prod.snd := by
      rw [hcongr, hfil q]
    rw [show (fun w => decide (scoreOf cur s.user_data w = q)) ∘ Prod.snd =
        (fun p : ℚ × String => decide (scoreOf cur s.user_data p.2 = q)) from rfl]
    rw [hstep]
    have h1 : ((pairs.filter (scoreEq q)).map Prod.snd).Sublist (pairs.map Prod.snd) :=
      (List.filter_sublist _).map Prod.snd
    exact h1.trans (collect_compatible_snd_sublist now cur mode s.user_data
      s.waiting_users s.user_bans)
  · rw [hres]
    exact hperm.map Prod.snd

theorem find_partner_ne (a b : String) (hab : a ≠ b) :
    List.find? (fun uid => decide (uid ≠ a)) [a, b] = some b := by
  have h1 : (decide (a ≠ a)) = false := by simp
  have h2 : (decide (b ≠ a)) = true := by simp [hab.symm]
  simp [List.find?, h1, h2]

theorem teardown_room_spec (a b rid : String) (room : Room) (s : ServerState)
    (hur : alookup a s.user_rooms = some rid)
    (har : alookup rid s.active_rooms = some room)
    (husers : room.users = [a, b])
    (hab : a ≠ b)
    (han : (s.active_rooms.map Prod.fst).Nodup)
    (hun : (s.user_rooms.map Prod.fst).Nodup) :
    (teardown_room a s).2 = [Event.partner_disconnected b] ∧
    alookup rid (teardown_room a s).1.active_rooms = none ∧
    alookup a (teardown_room a s).1.user_rooms = none ∧
    alookup b (teardown_room a s).1.user_rooms = none ∧
    (teardown_room a s).1.waiting_users = s.waiting_users ∧
    (teardown_room a s).1.user_data = s.user_data ∧
    (teardown_room a s).1.user_bans = s.user_bans := by
  have hfind : room.users.find? (fun uid => decide (uid ≠ a)) = some b := by
    rw [husers]
    exact find_partner_ne a b hab
  unfold teardown_room
  rw [hur]
  dsimp only
  rw [har]
  dsimp only
  rw [hfind]
  dsimp only
  refine ⟨rfl, ?_, ?_, ?_, rfl, rfl, rfl⟩
  · exact alookup_aerase_self rid s.active_rooms han
  · exact alookup_aerase_self a (aerase b s.user_rooms) (nodup_keys_aerase b _ hun)
  · rw [alookup_aerase_ne a b _ hab.symm]
    exact alookup_aerase_self b s.user_rooms hun

theorem alookup_cleanup_aset (now : ℕ) (ip : String) (r : BanRec)
    (bans : List (String × BanRec)) (hr : ¬ r.ban_end < now) :
    alookup ip (cleanup_expired_bans now (aset ip r bans)) = some r := by
  apply alookup_filter ip r _ _ (alookup_aset_self ip r bans)
  simp [hr]

/-- Behaviour of `ban_user` on a session in a two-member room: the escalated
ban record is written, the session leaves the queue, the partner is notified
once, the room is deleted and both bindings are cleared; the events are
exactly `partner_disconnected` then `force_disconnect` with the new expiry. -/
theorem ban_user_spec (now : ℕ) (ip reason : String) (a b rid : String)
    (room : Room) (s : ServerState)
    (hw : s.waiting_users.Nodup)
    (hur : alookup a s.user_rooms = some rid)
    (har : alookup rid s.active_rooms = some room)
    (husers : room.users = [a, b])
    (hab : a ≠ b)
    (han : (s.active_rooms.map Prod.fst).Nodup)
    (hun : (s.user_rooms.map Prod.fst).Nodup) :
    (ban_user now ip reason (some a) s).2 =
      [Event.partner_disconnected b,
       Event.force_disconnect a
         (now + BAN_DURATION * 2 ^ (((alookup ip s.user_bans).map BanRec.ban_count).getD 0))
         reason] ∧
    alookup ip (ban_user now ip reason (some a) s).1.user_bans =
      some ⟨now + BAN_DURATION * 2 ^ (((alookup ip s.user_bans).map BanRec.ban_count).getD 0),
            reason,
            ((alookup ip s.user_bans).map BanRec.ban_count).getD 0 + 1⟩ ∧
    a ∉ (ban_user now ip reason (some a) s).1.waiting_users ∧
    alookup rid (ban_user now ip reason (some a) s).1.active_rooms = none ∧
    alookup a (ban_user now ip reason (some a) s).1.user_rooms = none ∧
    alookup b (ban_user now ip reason (some a) s).1.user_rooms = none := by
  have hfind : room.users.find? (fun uid => decide (uid ≠ a)) = some b := by
    rw [husers]
    exact find_partner_ne a b hab
  unfold ban_user
  dsimp only
  rw [hur]
  dsimp only
  rw [har]
  dsimp only
  rw [hfind]
  dsimp only
  refine ⟨rfl, ?_, ?_, ?_, ?_, ?_⟩
  · apply alookup_cleanup_aset
    dsimp only
    omega
  · by_cases hmem : a ∈ s.waiting_users
    · simp only [if_pos hmem]
      exact hw.not_mem_erase
    · simp only [if_neg hmem]
      exact hmem
  · exact alookup_aerase_self rid s.active_rooms han
  · exact alookup_aerase_self a (aerase b s.user_rooms) (nodup_keys_aerase b _ hun)
  · rw [alookup_aerase_ne a b _ hab.symm]
    exact alookup_aerase_self b s.user_rooms hun

/-- C8: for an active two-member room, each way a member leaves — `next`,
disconnect, or a ban — sends the partner exactly one `partner_disconnected`
notice, removes the room record, and clears the room bindings of both members. -/
theorem leaving_room_teardown (now : ℕ) (a b rid ip reason ipa : String)
    (room : Room) (s : ServerState)
    (hw : s.waiting_users.Nodup)
    (hur : alookup a s.user_rooms = some rid)
    (har : alookup rid s.active_rooms = some room)
    (husers : room.users = [a, b])
    (hab : a ≠ b)
    (han : (s.active_rooms.map Prod.fst).Nodup)
    (hun : (s.user_rooms.map Prod.fst).Nodup) :
    (resolve_ip a s.user_data = some ipa →
     (is_banned now ipa s.user_bans).1.1 = false →
      ((handle_next_partner now a s).2.filter isPD = [Event.partner_disconnected b] ∧
       alookup rid (handle_next_partner now a s).1.active_rooms = none ∧
       alookup a (handle_next_partner now a s).1.user_rooms = none ∧
       alookup b (handle_next_partner now a s).1.user_rooms = none)) ∧
    ((handle_disconnect a s).2.filter isPD = [Event.partner_disconnected b] ∧
     alookup rid (handle_disconnect a s).1.active_rooms = none ∧
     alookup a (handle_disconnect a s).1.user_rooms = none ∧
     alookup b (handle_disconnect a s).1.user_rooms = none) ∧
    ((ban_user now ip reason (some a) s).2.filter isPD = [Event.partner_disconnected b] ∧
     alookup rid (ban_user now ip reason (some a) s).1.active_rooms = none ∧
     alookup a (ban_user now ip reason (some a) s).1.user_rooms = none ∧
     alookup b (ban_user now ip reason (some a) s).1.user_rooms = none) := by
  refine ⟨?_, ?_, ?_⟩
  · intro hres hnb
    have hspec := teardown_room_spec a b rid room
      { s with user_bans := (is_banned now ipa s.user_bans).2 }
      hur har husers hab han hun
    obtain ⟨he, h1, h2, h3, _, _, _⟩ := hspec
    unfold handle_next_partner
    rw [hres]
    dsimp only
    rw [if_neg (by simp [hnb])]
    exact ⟨by rw [List.filter_append, he]; rfl, h1, h2, h3⟩
  · have hspec := teardown_room_spec a b rid room
      (if a ∈ s.waiting_users
        then { s with waiting_users := s.waiting_users.erase a } else s)
      (by split <;> exact hur) (by split <;> exact har) husers hab
      (by split <;> exact han) (by split <;> exact hun)
    obtain ⟨he, h1, h2, h3, _, _, _⟩ := hspec
    unfold handle_disconnect
    dsimp only
    exact ⟨by rw [List.filter_append, he]; rfl, h1, h2, h3⟩
  · obtain ⟨he, _, _, h1, h2, h3⟩ :=
      ban_user_spec now ip reason a b rid room s hw hur har husers hab han hun
    exact ⟨by rw [he]; rfl, h1, h2, h3⟩

/-- A concrete two-member room state: `a` and `b` paired in room `r`. -/
def roomState : ServerState :=
  { initialState with
      active_rooms := [("r", ⟨["a", "b"], 0, "text"⟩)],
      user_rooms := [("a", "r"), ("b", "r")],
      user_data := [("a", ⟨0, none, [], "ipA", some "text"⟩),
                    ("b", ⟨0, none, [], "ipB", some "text"⟩)],
      room_messages := [("r", [])] }

/-- Closed instances of C8 obtained from `leaving_room_teardown` on
`roomState`. -/
theorem leaving_room_teardown_witness :
    ((handle_next_partner 0 "a" roomState).2.filter isPD =
        [Event.partner_disconnected "b"] ∧
     alookup "r" (handle_next_partner 0 "a" roomState).1.active_rooms = none ∧
     alookup "a" (handle_next_partner 0 "a" roomState).1.user_rooms = none ∧
     alookup "b" (handle_next_partner 0 "a" roomState).1.user_rooms = none) ∧
    ((handle_disconnect "a" roomState).2.filter isPD =
        [Event.partner_disconnected "b"] ∧
     alookup "r" (handle_disconnect "a" roomState).1.active_rooms = none ∧
     alookup "a" (handle_disconnect "a" roomState).1.user_rooms = none ∧
     alookup "b" (handle_disconnect "a" roomState).1.user_rooms = none) ∧
    ((ban_user 0 "ipA" "spam" (some "a") roomState).2.filter isPD =
        [Event.partner_disconnected "b"] ∧
     alookup "r" (ban_user 0 "ipA" "spam" (some "a") roomState).1.active_rooms = none ∧
     alookup "a" (ban_user 0 "ipA" "spam" (some "a") roomState).1.user_rooms = none ∧
     alookup "b" (ban_user 0 "ipA" "spam" (some "a") roomState).1.user_rooms = none) := by
  have h := leaving_room_teardown 0 "a" "b" "r" "ipA" "spam" "ipA"
    ⟨["a", "b"], 0, "text"⟩ roomState (by decide) (by decide) (by decide) rfl
    (by decide) (by decide) (by decide)
  exact ⟨h.1 (by decide) (by decide), h.2.1, h.2.2⟩

/-- Closed instance of C9 obtained from `transcript_sender_always_tu`:
relaying "hi" in `roomState` stores an entry whose sender is `"Tu"`. -/
theorem transcript_sender_always_tu_witness :
    (⟨"Tu", html_escape "hi", 0⟩ : Message) ∈
      (alookup "r" (handle_message 0 "a" "hi" roomState).1.room_messages).getD [] ∧
    ((⟨"Tu", html_escape "hi", 0⟩ : Message) ∈
        (alookup "r" roomState.room_messages).getD [] ∨
     (⟨"Tu", html_escape "hi", 0⟩ : Message).sender = "Tu") := by
  have hmem : (⟨"Tu", html_escape "hi", 0⟩ : Message) ∈
      (alookup "r" (handle_message 0 "a" "hi" roomState).1.room_messages).getD [] := by
    decide
  exact ⟨hmem, transcript_sender_always_tu 0 "a" "hi" roomState "r" _ hmem⟩

/-- When validation passes and the stored count is already recorded, a
threshold-reaching `report_user` call is exactly `ban_user` on the state with
the bumped count, appended log and possibly persisted transcript. -/
theorem report_user_threshold_step (now : ℕ)
    (reporter_sid reported_sid reason comment : String) (s : ServerState)
    (reported_ip reporter_ip : String) (rr : ReportRec)
    (hneq : reported_sid ≠ reporter_sid)
    (hrip : resolve_ip reported_sid s.user_data = some reported_ip)
    (hpip : resolve_ip reporter_sid s.user_data = some reporter_ip)
    (hreason : reason ∈ VALID_REPORT_REASONS)
    (hrr : alookup reported_ip s.user_reports = some rr)
    (hth : REPORT_THRESHOLD ≤ rr.report_count + 1) :
    ∃ reports log saved,
      report_user now reporter_sid reported_sid reason comment s =
        ban_user now reported_ip reason (some reported_sid)
          { s with user_reports := reports, report_log := log, saved_logs := saved } := by
  unfold report_user
  rw [if_neg hneq, hrip, hpip]
  dsimp only
  rw [if_neg (not_not_intro hreason)]
  have hio : insert_or_ignore reported_ip now s.user_reports = s.user_reports := by
    unfold insert_or_ignore
    rw [hrr]
    rfl
  have hinc : increment_report reported_ip now
      (insert_or_ignore reported_ip now s.user_reports) =
      aset reported_ip ⟨rr.report_count + 1, now⟩ s.user_reports := by
    rw [hio]
    unfold increment_report
    rw [hrr]
  rw [hinc, alookup_aset_self]
  simp only [Option.map_some, Option.map_some', Option.getD_some]
  rw [if_pos hth]
  unfold maybe_save_transcript
  split
  · split
    · unfold save_conversation_log
      split
      · exact ⟨_, _, _, rfl⟩
      · exact ⟨_, _, _, rfl⟩
    · exact ⟨_, _, _, rfl⟩
  · exact ⟨_, _, _, rfl⟩

/-- C3: a report that takes the post-increment count to the threshold writes a
ban of `BAN_DURATION * 2 ^ prior_ban_count` seconds (so 1800 s on a first
offense and 3600 s after one prior ban) with the stored count incremented,
dequeues the reported session, tears down its room notifying the partner, and
pushes `force_disconnect` with the new expiry and reason. -/
theorem report_threshold_triggers_ban (now : ℕ)
    (reporter_sid reported_sid reason comment reported_ip reporter_ip rid partner : String)
    (rr : ReportRec) (room : Room) (s : ServerState)
    (hneq : reported_sid ≠ reporter_sid)
    (hrip : resolve_ip reported_sid s.user_data = some reported_ip)
    (hpip : resolve_ip reporter_sid s.user_data = some reporter_ip)
    (hreason : reason ∈ VALID_REPORT_REASONS)
    (hrr : alookup reported_ip s.user_reports = some rr)
    (hth : rr.report_count + 1 = REPORT_THRESHOLD)
    (hw : s.waiting_users.Nodup)
    (hur : alookup reported_sid s.user_rooms = some rid)
    (har : alookup rid s.active_rooms = some room)
    (husers : room.users = [reported_sid, partner])
    (hab : reported_sid ≠ partner)
    (han : (s.active_rooms.map Prod.fst).Nodup)
    (hun : (s.user_rooms.map Prod.fst).Nodup) :
    alookup reported_ip
        (report_user now reporter_sid reported_sid reason comment s).1.user_bans =
      some ⟨now + BAN_DURATION *
              2 ^ (((alookup reported_ip s.user_bans).map BanRec.ban_count).getD 0),
            reason,
            ((alookup reported_ip s.user_bans).map BanRec.ban_count).getD 0 + 1⟩ ∧
    reported_sid ∉
      (report_user now reporter_sid reported_sid reason comment s).1.waiting_users ∧
    Event.partner_disconnected partner ∈
      (report_user now reporter_sid reported_sid reason comment s).2 ∧
    Event.force_disconnect reported_sid
        (now + BAN_DURATION *
          2 ^ (((alookup reported_ip s.user_bans).map BanRec.ban_count).getD 0)) reason ∈
      (report_user now reporter_sid reported_sid reason comment s).2 ∧
    alookup rid
      (report_user now reporter_sid reported_sid reason comment s).1.active_rooms = none ∧
    alookup reported_sid
      (report_user now reporter_sid reported_sid reason comment s).1.user_rooms = none ∧
    BAN_DURATION * 2 ^ 0 = 1800 ∧ BAN_DURATION * 2 ^ 1 = 1800 * 2 := by
  obtain ⟨A, B, C, heq⟩ := report_user_threshold_step now reporter_sid reported_sid
    reason comment s reported_ip reporter_ip rr hneq hrip hpip hreason hrr
    (le_of_eq hth.symm)
  rw [heq]
  obtain ⟨he, hb, hwm, hroom, hua, hub⟩ :=
    ban_user_spec now reported_ip reason reported_sid partner rid room
      { s with user_reports := A, report_log := B, saved_logs := C }
      hw hur har husers hab han hun
  refine ⟨hb, hwm, ?_, ?_, hroom, hua, by norm_num [BAN_DURATION], by norm_num [BAN_DURATION]⟩
  · rw [he]
    exact List.mem_cons_self _ _
  · rw [he]
    exact List.mem_cons_of_mem _ (List.mem_cons_self _ _)

/-- A state in which `x` (address `ipX`, 9 recorded reports, one prior ban
already recorded) sits in room `r` with `y`. -/
def reportedState : ServerState :=
  { initialState with
      active_rooms := [("r", ⟨["x", "y"], 0, "text"⟩)],
      user_rooms := [("x", "r"), ("y", "r")],
      user_data := [("x", ⟨0, none, [], "ipX", some "text"⟩),
                    ("y", ⟨0, none, [], "ipY", some "text"⟩)],
      room_messages := [("r", [])],
      user_reports := [("ipX", ⟨9, 0⟩)],
      user_bans := [("ipX", ⟨50, "old", 1⟩)] }

/-- Closed instance of C3 obtained from `report_threshold_triggers_ban`: the
10th report on `ipX`, which has one prior recorded ban, bans it for
`1800 * 2` seconds starting at clock 100. -/
theorem report_threshold_triggers_ban_witness :
    alookup "ipX" (report_user 100 "y" "x" "spam" "" reportedState).1.user_bans =
      some ⟨100 + BAN_DURATION * 2 ^ 1, "spam", 2⟩ ∧
    "x" ∉ (report_user 100 "y" "x" "spam" "" reportedState).1.waiting_users ∧
    Event.partner_disconnected "y" ∈ (report_user 100 "y" "x" "spam" "" reportedState).2 ∧
    Event.force_disconnect "x" (100 + BAN_DURATION * 2 ^ 1) "spam" ∈
      (report_user 100 "y" "x" "spam" "" reportedState).2 ∧
    alookup "r" (report_user 100 "y" "x" "spam" "" reportedState).1.active_rooms = none ∧
    alookup "x" (report_user 100 "y" "x" "spam" "" reportedState).1.user_rooms = none := by
  have h := report_threshold_triggers_ban 100 "y" "x" "spam" "" "ipX" "ipY" "r" "y"
    ⟨9, 0⟩ ⟨["x", "y"], 0, "text"⟩ reportedState (by decide) (by decide) (by decide)
    (by decide) (by decide) (by decide) (by decide) (by decide) (by decide) rfl
    (by decide) (by decide) (by decide)
  exact ⟨h.1, h.2.1, h.2.2.1, h.2.2.2.1, h.2.2.2.2.1, h.2.2.2.2.2.1⟩

theorem teardown_room_user_reports (uid : String) (s : ServerState) :
    (teardown_room uid s).1.user_reports = s.user_reports := by
  unfold teardown_room
  split
  · rfl
  · split
    · rfl
    · split <;> rfl

theorem ban_user_user_reports (now : ℕ) (ip reason : String) (sid : Option String)
    (s : ServerState) : (ban_user now ip reason sid s).1.user_reports = s.user_reports := by
  unfold ban_user
  dsimp only
  split
  · rfl
  · split
    · rfl
    · split
      · rfl
      · split <;> rfl

theorem save_conversation_log_user_reports (rid : String) (n : ℕ) (s : ServerState) :
    (save_conversation_log rid n s).user_reports = s.user_reports := by
  unfold save_conversation_log
  split <;> rfl

theorem handle_connect_user_reports (now : ℕ) (uid ip : String) (s : ServerState) :
    (handle_connect now uid ip s).1.user_reports = s.user_reports := by
  unfold handle_connect
  dsimp only
  split <;> rfl

theorem handle_find_partner_user_reports (now : ℕ) (uid : String)
    (ints : List String) (mode nrid : String) (s : ServerState) :
    (handle_find_partner now uid ints mode nrid s).1.user_reports = s.user_reports := by
  unfold handle_find_partner
  split
  · rfl
  · dsimp only
    split
    · rfl
    · (repeat' split) <;> rfl

theorem handle_stop_searching_user_reports (now : ℕ) (uid : String) (s : ServerState) :
    (handle_stop_searching now uid s).1.user_reports = s.user_reports := by
  unfold handle_stop_searching
  split
  · rfl
  · dsimp only
    split
    · rfl
    · split <;> rfl

theorem handle_next_partner_user_reports (now : ℕ) (uid : String) (s : ServerState) :
    (handle_next_partner now uid s).1.user_reports = s.user_reports := by
  unfold handle_next_partner
  split
  · rfl
  · dsimp only
    split
    · rfl
    · exact teardown_room_user_reports uid _

theorem handle_change_mode_user_reports (uid : String) (s : ServerState) :
    (handle_change_mode uid s).1.user_reports = s.user_reports := by
  unfold handle_change_mode
  dsimp only
  have h := teardown_room_user_reports uid
    (if uid ∈ s.waiting_users
      then { s with waiting_users := s.waiting_users.erase uid } else s)
  rw [h]
  split <;> rfl

theorem handle_disconnect_user_reports (uid : String) (s : ServerState) :
    (handle_disconnect uid s).1.user_reports = s.user_reports := by
  unfold handle_disconnect
  dsimp only
  have h := teardown_room_user_reports uid
    (if uid ∈ s.waiting_users
      then { s with waiting_users := s.waiting_users.erase uid } else s)
  rw [h]
  split <;> rfl

theorem bump_reportCount_le (ip rip : String) (now : ℕ)
    (reports : List (String × ReportRec)) :
    ((alookup ip reports).map ReportRec.report_count).getD 0 ≤
    ((alookup ip (increment_report rip now (insert_or_ignore rip now reports))).map
        ReportRec.report_count).getD 0 := by
  by_cases hip : ip = rip
  · subst hip
    cases hl : alookup ip reports with
    | none =>
        have hio : insert_or_ignore ip now reports = aset ip ⟨0, now⟩ reports := by
          unfold insert_or_ignore
          rw [hl]
          rfl
        have hinc : increment_report ip now (aset ip ⟨0, now⟩ reports) =
            aset ip ⟨0 + 1, now⟩ (aset ip ⟨0, now⟩ reports) := by
          unfold increment_report
          rw [alookup_aset_self]
        rw [hio, hinc, alookup_aset_self]
        simp
    | some r =>
        have hio : insert_or_ignore ip now reports = reports := by
          unfold insert_or_ignore
          rw [hl]
          rfl
        have hinc : increment_report ip now reports =
            aset ip ⟨r.report_count + 1, now⟩ reports := by
          unfold increment_report
          rw [hl]
        rw [hio, hinc, alookup_aset_self]
        simp
  · have h1 : alookup ip (insert_or_ignore rip now reports) = alookup ip reports := by
      unfold insert_or_ignore
      split
      · rfl
      · exact alookup_aset_ne rip ip _ _ hip
    have h2 : alookup ip (increment_report rip now (insert_or_ignore rip now reports)) =
        alookup ip (insert_or_ignore rip now reports) := by
      unfold increment_report
      split
      · exact alookup_aset_ne rip ip _ _ hip
      · rfl
    rw [h2, h1]

theorem maybe_save_transcript_user_reports (a : String) (n : ℕ) (st : ServerState) :
    (maybe_save_transcript a n st).user_reports = st.user_reports := by
  unfold maybe_save_transcript
  split
  · split
    · rw [save_conversation_log_user_reports]
    · rfl
  · rfl

theorem ban_user_writes_ban (now : ℕ) (ip reason : String) (sid : Option String)
    (s : ServerState) :
    alookup ip (ban_user now ip reason sid s).1.user_bans =
      some ⟨now + BAN_DURATION *
              2 ^ (((alookup ip s.user_bans).map BanRec.ban_count).getD 0),
            reason, ((alookup ip s.user_bans).map BanRec.ban_count).getD 0 + 1⟩ := by
  unfold ban_user
  dsimp only
  split
  · exact alookup_cleanup_aset now ip _ _ (by dsimp only; omega)
  · split
    · exact alookup_cleanup_aset now ip _ _ (by dsimp only; omega)
    · split
      · exact alookup_cleanup_aset now ip _ _ (by dsimp only; omega)
      · split
        · exact alookup_cleanup_aset now ip _ _ (by dsimp only; omega)
        · exact alookup_cleanup_aset now ip _ _ (by dsimp only; omega)

theorem report_user_reportCount_mono (now : ℕ) (a b reason comment ip : String)
    (s : ServerState) :
    reportCount ip s ≤ reportCount ip (report_user now a b reason comment s).1 := by
  unfold report_user
  split
  · exact Nat.le.refl
  · split
    · split
      · exact Nat.le.refl
      · dsimp only
        unfold reportCount
        split
        · rw [ban_user_user_reports, maybe_save_transcript_user_reports]
          exact bump_reportCount_le ip _ now s.user_reports
        · dsimp only
          rw [maybe_save_transcript_user_reports]
          exact bump_reportCount_le ip _ now s.user_reports
    · exact Nat.le.refl

theorem report_user_reportCount_mono' (now : ℕ) (a b reason comment ip : String)
    (s0 s : ServerState) (hsame : s0.user_reports = s.user_reports) :
    reportCount ip s0 ≤ reportCount ip (report_user now a b reason comment s).1 := by
  have h := report_user_reportCount_mono now a b reason comment ip s
  unfold reportCount at h ⊢
  rw [hsame]
  exact h

theorem handle_report_user_reportCount_mono (now : ℕ) (uid : String)
    (rep : Option String) (reason comment ip : String) (s : ServerState) :
    reportCount ip s ≤ reportCount ip (handle_report_user now uid rep reason comment s).1 := by
  unfold handle_report_user
  split
  · exact Nat.le.refl
  · dsimp only
    split
    · exact Nat.le.refl
    · split
      · split
        · exact report_user_reportCount_mono' now uid _ reason comment ip s _ rfl
        · exact Nat.le.refl
      · exact Nat.le.refl

/-- C10: no operation ever decreases the cumulative per-address `report_count`,
and every valid report whose post-increment count is at or above the threshold
writes a fresh ban with the escalated duration
`BAN_DURATION * 2 ^ prior_ban_count` and the prior count incremented — not
only the report that first reaches the threshold. -/
theorem report_count_monotone_and_retriggers :
    (∀ (now : ℕ) (op : Op) (s : ServerState) (ip : String),
      reportCount ip s ≤ reportCount ip (step now op s).1) ∧
    (∀ (now : ℕ) (reporter_sid reported_sid reason comment reported_ip reporter_ip : String)
        (rr : ReportRec) (s : ServerState),
      reported_sid ≠ reporter_sid →
      resolve_ip reported_sid s.user_data = some reported_ip →
      resolve_ip reporter_sid s.user_data = some reporter_ip →
      reason ∈ VALID_REPORT_REASONS →
      alookup reported_ip s.user_reports = some rr →
      REPORT_THRESHOLD ≤ rr.report_count + 1 →
      alookup reported_ip
          (report_user now reporter_sid reported_sid reason comment s).1.user_bans =
        some ⟨now + BAN_DURATION *
                2 ^ (((alookup reported_ip s.user_bans).map BanRec.ban_count).getD 0),
              reason,
              ((alookup reported_ip s.user_bans).map BanRec.ban_count).getD 0 + 1⟩) := by
  constructor
  · intro now op s ip
    cases op with
    | connect sid ipc =>
        unfold reportCount
        rw [show (step now (Op.connect sid ipc) s).1.user_reports = s.user_reports from
          handle_connect_user_reports now sid ipc s]
    | find_partner sid ints mode nrid =>
        unfold reportCount
        rw [show (step now (Op.find_partner sid ints mode nrid) s).1.user_reports =
          s.user_reports from handle_find_partner_user_reports now sid ints mode nrid s]
    | stop_searching sid =>
        unfold reportCount
        rw [show (step now (Op.stop_searching sid) s).1.user_reports = s.user_reports from
          handle_stop_searching_user_reports now sid s]
    | next_partner sid =>
        unfold reportCount
        rw [show (step now (Op.next_partner sid) s).1.user_reports = s.user_reports from
          handle_next_partner_user_reports now sid s]
    | change_mode sid =>
        unfold reportCount
        rw [show (step now (Op.change_mode sid) s).1.user_reports = s.user_reports from
          handle_change_mode_user_reports sid s]
    | disconnect sid =>
        unfold reportCount
        rw [show (step now (Op.disconnect sid) s).1.user_reports = s.user_reports from
          handle_disconnect_user_reports sid s]
    | report sid rep reason comment =>
        exact handle_report_user_reportCount_mono now sid rep reason comment ip s
  · intro now reporter_sid reported_sid reason comment reported_ip reporter_ip rr s
      hneq hrip hpip hreason hrr hth
    obtain ⟨A, B, C, heq⟩ := report_user_threshold_step now reporter_sid reported_sid
      reason comment s reported_ip reporter_ip rr hneq hrip hpip hreason hrr hth
    rw [heq]
    exact ban_user_writes_ban now reported_ip reason (some reported_sid)
      { s with user_reports := A, report_log := B, saved_logs := C }

/-- A state where address `ipX` already has 15 recorded reports (past the
threshold) and one prior recorded ban. -/
def heavyState : ServerState :=
  { initialState with
      user_data := [("x", ⟨0, none, [], "ipX", some "text"⟩),
                    ("y", ⟨0, none, [], "ipY", some "text"⟩)],
      user_reports := [("ipX", ⟨15, 0⟩)],
      user_bans := [("ipX", ⟨50, "old", 1⟩)] }

/-- Closed instances of C10 obtained from `report_count_monotone_and_retriggers`:
a further report against the already-over-threshold `ipX` does not lower the
count and writes a fresh ban with doubled duration and ban count 2. -/
theorem report_count_monotone_and_retriggers_witness :
    reportCount "ipX" heavyState ≤
      reportCount "ipX" (step 100 (Op.report "y" (some "x") "spam" "") heavyState).1 ∧
    alookup "ipX" (report_user 100 "y" "x" "spam" "" heavyState).1.user_bans =
      some ⟨100 + BAN_DURATION * 2 ^ 1, "spam", 2⟩ := by
  refine ⟨report_count_monotone_and_retriggers.1 100 _ heavyState "ipX", ?_⟩
  exact report_count_monotone_and_retriggers.2 100 "y" "x" "spam" "" "ipX" "ipY"
    ⟨15, 0⟩ heavyState (by decide) (by decide) (by decide) (by decide) (by decide)
    (by decide)

/-- A state where the reported target exists but the reporter has no session
record, so the address of the reporter cannot be resolved. -/
def noReporterState : ServerState :=
  { initialState with user_data := [("tgt", ⟨0, none, [], "ipT", none⟩)] }

/-- C6 counterexample: a report by a reporter whose address cannot be resolved is
dropped silently — no error event is emitted at all — contradicting the claim
that such a submission results in an error event to the reporter. -/
theorem report_validation_counterexample :
    alookup "rep" noReporterState.user_data = none ∧
    handle_report_user 0 "rep" (some "tgt") "spam" "" noReporterState =
      (noReporterState, []) :=
  ⟨rfl, rfl⟩

/-- C6 (amended): with a resolvable, unbanned reporter, a self-report, an
unresolvable reported address, or an invalid reason code yields exactly one
error event to the reporter and leaves every table unchanged except for the
lazy expired-ban deletion done by the admission ban check of the reporter; a
submission by a reporter whose own address cannot be resolved is dropped
silently — no events, no state change. -/
theorem report_validation_spec :
    (∀ (now : ℕ) (uid : String) (rid : Option String) (reason comment : String)
        (s : ServerState),
      resolve_ip uid s.user_data = none →
      handle_report_user now uid rid reason comment s = (s, [])) ∧
    (∀ (now : ℕ) (uid rid reason comment uip : String) (s : ServerState),
      resolve_ip uid s.user_data = some uip →
      (is_banned now uip s.user_bans).1.1 = false →
      (rid = uid ∨ resolve_ip rid s.user_data = none ∨ reason ∉ VALID_REPORT_REASONS) →
      (∃ m, (handle_report_user now uid (some rid) reason comment s).2 =
          [Event.error uid m]) ∧
      (handle_report_user now uid (some rid) reason comment s).1 =
        { s with user_bans := (is_banned now uip s.user_bans).2 }) := by
  constructor
  · intro now uid rid reason comment s hres
    unfold handle_report_user
    rw [hres]
  · intro now uid rid reason comment uip s hres hnb hcase
    unfold handle_report_user
    rw [hres]
    dsimp only
    rw [hnb]
    simp only [Bool.false_eq_true, if_false]
    by_cases hguard : rid ≠ "" ∧ rid ≠ uid
    · rw [if_pos hguard]
      rcases hcase with h | h | h
      · exact absurd h hguard.2
      · unfold report_user
        rw [if_neg hguard.2]
        dsimp only
        rw [h]
        exact ⟨⟨_, rfl⟩, rfl⟩
      · unfold report_user
        rw [if_neg hguard.2]
        dsimp only
        cases hrid : resolve_ip rid s.user_data with
        | none => exact ⟨⟨_, rfl⟩, rfl⟩
        | some tip =>
            rw [hres]
            dsimp only
            rw [if_pos h]
            exact ⟨⟨_, rfl⟩, rfl⟩
    · rw [if_neg hguard]
      exact ⟨⟨_, rfl⟩, rfl⟩

/-- Closed instances of C6 from the scenario family of the counterexample, obtained from `report_validation_spec`: an unresolvable reporter is
dropped silently in `roomState`, and a self-report by `a` yields exactly one
error event and only the lazy ban-check state change. -/
theorem report_validation_spec_witness :
    handle_report_user 0 "missing" (some "a") "spam" "" roomState = (roomState, []) ∧
    (∃ m, (handle_report_user 0 "a" (some "a") "spam" "" roomState).2 =
        [Event.error "a" m]) ∧
    (handle_report_user 0 "a" (some "a") "spam" "" roomState).1 =
      { roomState with user_bans := (is_banned 0 "ipA" roomState.user_bans).2 } := by
  have h2 := report_validation_spec.2 0 "a" "a" "spam" "" "ipA" roomState rfl rfl
    (Or.inl rfl)
  exact ⟨report_validation_spec.1 0 "missing" (some "a") "spam" "" roomState rfl,
    h2.1, h2.2⟩

/-- A queue of three waiting sessions with equal similarity (all score 0) to
requester `me`. -/
def queueState : ServerState :=
  { initialState with
      waiting_users := ["w1", "w2", "w3"],
      user_data := [("w1", ⟨0, none, [], "ip1", some "text"⟩),
                    ("w2", ⟨0, none, [], "ip2", some "text"⟩),
                    ("w3", ⟨0, none, [], "ip3", some "text"⟩),
                    ("me", ⟨0, none, ["music"], "ip4", some "text"⟩)] }

/-- Closed instance of C5 obtained from `ranking_desc_and_stable`: three
waiting sessions with equal similarity to the requester are ranked in their
original enqueue order. -/
theorem ranking_desc_and_stable_witness :
    (get_sorted_waiting_partners 0 "me" "text" queueState).1 = ["w1", "w2", "w3"] ∧
    (∀ q, ((get_sorted_waiting_partners 0 "me" "text" queueState).1.filter
        (fun w => scoreOf (current_interests "me" queueState) queueState.user_data w = q)).Sublist
        queueState.waiting_users) :=
  ⟨by decide, (ranking_desc_and_stable 0 "me" "text" queueState).2.1⟩

end ChatRoulette
